import Mathlib

/-!
Shallow embedding of the snake-game simulation from src/main.rs.

The embedding follows the source closely:
- `GameState` mirrors the Rust struct (window/channel fields omitted; the
  frames counter of `WindowData` is threaded separately in `kbTick`).
- Machine integers (Rust `isize`) are modelled as `Int`; none of the
  arithmetic in the verified paths can overflow a 64-bit machine word for
  the inputs considered.
- Rust panics (`unwrap` on an empty body, out-of-range `Vec` indexing)
  are modelled as `Option.none`.
- The random fruit draw `rng.random_range(0..board)` is modelled as an
  explicit input parameter; the reachability relation `kbStep` constrains
  it to the in-range values the generator can produce.
-/

/-- The `Move` enum of the source: the four directional intents plus pass. -/
inductive Move where
  | TOP
  | BTM
  | LFT
  | RHT
  | PAS
deriving DecidableEq, Repr

/-- Keyboard keys relevant to `update_game` in Keyboard mode. -/
inductive KbKey where
  | up
  | down
  | left
  | right
  | enter
deriving DecidableEq, Repr

/-- The game-environment fields of the Rust `GameState` struct (window and
channel handles omitted; they carry no simulation state other than the
frames counter, threaded separately). -/
structure GameState where
  game_over : Bool
  allow_move : Bool
  fruit_position : Option (Int × Int)
  snake_position : List (Int × Int)
  snake_velocity : Int × Int
  board_size : Int × Int
  score : Int
deriving DecidableEq, Repr

/-- `GameState::init`: board 16x16, single segment at (8,8), velocity
rightward, no fruit, score 0. -/
def initGameState : GameState :=
  { game_over := false
    allow_move := false
    fruit_position := none
    snake_position := [(8, 8)]
    snake_velocity := (1, 0)
    board_size := (16, 16)
    score := 0 }

/-- `GameState::reset`: restores the start condition, preserving the board
size (and the `allow_move` flag, which `reset` does not touch). -/
def reset (s : GameState) : GameState :=
  { s with
    game_over := false
    snake_position := [(8, 8)]
    fruit_position := none
    score := 0
    snake_velocity := (1, 0) }

/-- `GameState::update_snake`: shift every segment one slot toward the tail,
set the new head to old head plus velocity, check wall and self collision,
clear `allow_move`, charge the per-tick score decrement, and return the
position vacated by the former tail. `none` models the panic of
`last().unwrap()` on an empty body. -/
def updateSnake (s : GameState) : Option (GameState × (Int × Int)) :=
  match s.snake_position with
  | [] => none
  | p :: ps =>
    let last_position := (p :: ps).getLast (List.cons_ne_nil p ps)
    let newHead : Int × Int := (p.1 + s.snake_velocity.1, p.2 + s.snake_velocity.2)
    let newBody := newHead :: (p :: ps).dropLast
    let wallHit : Bool :=
      decide (s.board_size.1 ≤ newHead.1) || decide (s.board_size.2 ≤ newHead.2) ||
        decide (newHead.1 < 0) || decide (newHead.2 < 0)
    let selfHit : Bool := decide (newHead ∈ (p :: ps).dropLast)
    some
      ({ s with
          snake_position := newBody
          game_over := s.game_over || wallHit || selfHit
          allow_move := false
          score := s.score - 1 },
        last_position)

/-- `GameState::update_env`: if no fruit is present, spawn one at the random
draw `rng`, substituting `last_position` when the draw lands on the snake;
then, if the head equals the fruit position, add 20 to the score, append
`last_position` as the new tail, and clear the fruit. `none` models the
index panic of `snake_position[0]` on an empty body. -/
def updateEnv (rng last_position : Int × Int) (s : GameState) : Option GameState :=
  let s1 :=
    match s.fruit_position with
    | none =>
      if rng ∈ s.snake_position then { s with fruit_position := some last_position }
      else { s with fruit_position := some rng }
    | some _ => s
  match s1.fruit_position, s1.snake_position with
  | some pos, h :: _ =>
    some
      (if h = pos then
        { s1 with
            score := s1.score + 20
            snake_position := s1.snake_position ++ [last_position]
            fruit_position := none }
      else s1)
  | some _, [] => none
  | none, _ => some s1

/-- The simulation step executed when `allow_move` holds: `update_snake`
followed by `update_env` on the vacated tail position (line 266-268). -/
def moveTick (rng : Int × Int) (s : GameState) : Option GameState :=
  match updateSnake s with
  | none => none
  | some (s1, last) => updateEnv rng last s1

/-- The step executed when `allow_move` is false: `update_env` with the
dummy last position `(0,0)` (line 270). -/
def idleTick (rng : Int × Int) (s : GameState) : Option GameState :=
  updateEnv rng (0, 0) s

/-- The velocity handling of the Keyboard branch of `update_game`
(lines 173-199): a directional key replaces the velocity only when the
targeted axis is currently zero, also clearing `allow_move`. -/
def kbApplyKey (key : Option KbKey) (s : GameState) : GameState :=
  match key with
  | some KbKey.right =>
    if s.snake_velocity.1 = 0 then
      { s with snake_velocity := (1, 0), allow_move := false }
    else s
  | some KbKey.left =>
    if s.snake_velocity.1 = 0 then
      { s with snake_velocity := (-1, 0), allow_move := false }
    else s
  | some KbKey.down =>
    if s.snake_velocity.2 = 0 then
      { s with snake_velocity := (0, 1), allow_move := false }
    else s
  | some KbKey.up =>
    if s.snake_velocity.2 = 0 then
      { s with snake_velocity := (0, -1), allow_move := false }
    else s
  | _ => s

/-- One full tick of `update_game` in Keyboard mode (pause is never toggled
anywhere in the source, so the paused branch is dead and omitted). The
`Nat` component is the `frames_counter` of `WindowData`: every tick whose
counter is divisible by 10 sets `allow_move`, so the snake moves on that
tick; other ticks run `update_env` with the dummy position. When
`game_over` holds, an Enter press resets the state and the tail of
`update_game` still runs `update_env`. -/
def kbTick (key : Option KbKey) (rng : Int × Int) : GameState × Nat → Option (GameState × Nat)
  | (s, fc) =>
    if s.game_over then
      let s1 := if key = some KbKey.enter then reset s else s
      match (if s1.allow_move then moveTick rng s1 else idleTick rng s1) with
      | none => none
      | some s2 => some (s2, fc)
    else
      let s1 := kbApplyKey key s
      let s2 := if fc % 10 = 0 then { s1 with allow_move := true } else s1
      match (if s2.allow_move then moveTick rng s2 else idleTick rng s2) with
      | none => none
      | some s3 => some (s3, fc + 1)

/-- The velocity handling of the External branch of `update_game`
(lines 241-263): identical acceptance rule, no `allow_move` bookkeeping. -/
def extApplyMove (m : Move) (s : GameState) : GameState :=
  match m with
  | Move.TOP =>
    if s.snake_velocity.2 = 0 then { s with snake_velocity := (0, -1) } else s
  | Move.BTM =>
    if s.snake_velocity.2 = 0 then { s with snake_velocity := (0, 1) } else s
  | Move.LFT =>
    if s.snake_velocity.1 = 0 then { s with snake_velocity := (-1, 0) } else s
  | Move.RHT =>
    if s.snake_velocity.1 = 0 then { s with snake_velocity := (1, 0) } else s
  | Move.PAS => s

/-- A checked write into the flat cell vector; `none` models the index
panic of `Vec` indexing with an out-of-range (or negative-cast) index. -/
def writeCell (cells : List Int) (idx : Int) (v : Int) : Option (List Int) :=
  if 0 ≤ idx ∧ idx.toNat < cells.length then some (cells.set idx.toNat v) else none

/-- The snapshot built by the External branch (lines 223-232): a vector of
`width * height` zeros, then `1` written at `width * column + row` for
every snake segment, then `2` at `column * width + row` for the fruit. -/
def buildSnapshot (s : GameState) : Option (List Int) :=
  let w := s.board_size.1
  let h := s.board_size.2
  let base := List.replicate (w * h).toNat (0 : Int)
  match s.snake_position.foldlM
      (fun cells part => writeCell cells (w * part.1 + part.2) 1) base with
  | none => none
  | some cells1 =>
    match s.fruit_position with
    | some pos => writeCell cells1 (pos.1 * w + pos.2) 2
    | none => some cells1

/-- The observable channel events of one External-mode tick: the snapshot
message sent on the state queue, and the intent received from the move
queue. -/
inductive ExtEvent where
  | send (board : List Int) (score : Int)
  | recvd (m : Move)
deriving DecidableEq, Repr

/-- One full tick of `update_game` in External mode (lines 212-271),
together with the list of channel events it performs in order. The intent
`m` is the value `recv` returns; `rng` is the fruit draw. On a `game_over`
tick the branch resets and returns early: no event occurs. -/
def extTick (m : Move) (rng : Int × Int) (s : GameState) :
    Option (List ExtEvent × GameState) :=
  let s0 := { s with allow_move := true }
  if s0.game_over then
    some ([], reset s0)
  else
    match buildSnapshot s0 with
    | none => none
    | some cells =>
      let s1 := extApplyMove m s0
      match moveTick rng s1 with
      | none => none
      | some s2 => some ([ExtEvent.send cells s0.score, ExtEvent.recvd m], s2)

/-- One keyboard-mode input: the key event of the tick (if any) and the
value the fruit draw would produce on that tick. -/
abbrev KbInput : Type := Option KbKey × Int × Int

/-- The random draw is uniform over the board extent, so exactly the
in-range pairs can occur. -/
def rngOk (s : GameState) (r : Int × Int) : Prop :=
  0 ≤ r.1 ∧ r.1 < s.board_size.1 ∧ 0 ≤ r.2 ∧ r.2 < s.board_size.2

instance (s : GameState) (r : Int × Int) : Decidable (rngOk s r) :=
  decidable_of_iff
    (0 ≤ r.1 ∧ r.1 < s.board_size.1 ∧ 0 ≤ r.2 ∧ r.2 < s.board_size.2) Iff.rfl

/-- One possible keyboard-mode tick: some key event and some in-range
fruit draw produce the successor state. -/
def kbStep (a b : GameState × Nat) : Prop :=
  ∃ (k : Option KbKey) (r : Int × Int), rngOk a.1 r ∧ kbTick k r a = some b

/-- States reachable from the initial state by keyboard-mode ticks. -/
def kbReachable (b : GameState × Nat) : Prop :=
  Relation.ReflTransGen kbStep (initGameState, 0) b

/-- Run a list of keyboard inputs, checking that every fruit draw is one
the generator can produce. -/
def runKb : List KbInput → GameState × Nat → Option (GameState × Nat)
  | [], a => some a
  | (k, r) :: rest, a =>
    if rngOk a.1 r then
      match kbTick k r a with
      | none => none
      | some b => runKb rest b
    else none

/-- The fruit position `update_env` ends up using after the spawn phase:
the pre-existing fruit if present, else the random draw, else the saved
last position when the draw lands on the snake. -/
def spawnPos (rng last_position : Int × Int) (s : GameState) : Int × Int :=
  match s.fruit_position with
  | some p => p
  | none => if rng ∈ s.snake_position then last_position else rng

/-- A position lies on a `w` x `w` board. -/
def inBoard (w : Int) (p : Int × Int) : Prop :=
  0 ≤ p.1 ∧ p.1 < w ∧ 0 ≤ p.2 ∧ p.2 < w

instance (w : Int) (p : Int × Int) : Decidable (inBoard w p) :=
  decidable_of_iff (0 ≤ p.1 ∧ p.1 < w ∧ 0 ≤ p.2 ∧ p.2 < w) Iff.rfl

/-- The snapshot format exactly as the claim states it: one entry per board
cell at index `column * board.height + row`, equal to 1 iff the cell is
occupied by a snake segment, 2 iff it holds the fruit, and 0 iff it is
empty. -/
def snapshotSpecClaim (s : GameState) (cells : List Int) : Prop :=
  cells.length = (s.board_size.1 * s.board_size.2).toNat ∧
    (∀ v ∈ cells, v = 0 ∨ v = 1 ∨ v = 2) ∧
    ∀ c r : Int, 0 ≤ c → c < s.board_size.1 → 0 ≤ r → r < s.board_size.2 →
      (cells[(c * s.board_size.2 + r).toNat]? = some 1 ↔ (c, r) ∈ s.snake_position) ∧
        (cells[(c * s.board_size.2 + r).toNat]? = some 2 ↔ s.fruit_position = some (c, r)) ∧
        (cells[(c * s.board_size.2 + r).toNat]? = some 0 ↔
          ((c, r) ∉ s.snake_position ∧ s.fruit_position ≠ some (c, r)))

/-- A run of keyboard ticks with no key press and an irrelevant in-range
fruit draw. -/
def idleIn (n : Nat) : List KbInput :=
  List.replicate n ((none : Option KbKey), ((5 : Int), (5 : Int)))

/-- Keyboard inputs of a 182-frame play (snake moves every 10th frame,
starting at frame 0): one rightward move while the fruit spawns at (0,1),
then up to the top wall, left to the corner, and down onto the fruit at
(0,1), capturing it with the tail at (0,0); the final idle frame then draws
(0,1), which lies on the snake, so the respawn falls back to the dummy
last position (0,0) -- an occupied cell. -/
def c1Inputs : List KbInput :=
  ((none : Option KbKey), ((0 : Int), (1 : Int))) :: (idleIn 9 ++
    (some KbKey.up, ((5 : Int), (5 : Int))) :: (idleIn 79 ++
      (some KbKey.left, ((5 : Int), (5 : Int))) :: (idleIn 89 ++
        [(some KbKey.down, ((5 : Int), (5 : Int))),
          ((none : Option KbKey), ((0 : Int), (1 : Int)))])))

/-- The state the inputs `c1Inputs` lead to: alive, fruit at (0,0), snake
occupying (0,1) and (0,0). -/
def c1Final : GameState × Nat :=
  ({ game_over := false
     allow_move := false
     fruit_position := some (0, 0)
     snake_position := [(0, 1), (0, 0)]
     snake_velocity := (0, 1)
     board_size := (16, 16)
     score := 1 }, 182)

/-- The scenario of spec property 7: board 4x4, body [(3,0),(2,0)],
velocity (1,0). -/
def c3State : GameState :=
  { game_over := false
    allow_move := true
    fruit_position := none
    snake_position := [(3, 0), (2, 0)]
    snake_velocity := (1, 0)
    board_size := (4, 4)
    score := 0 }

/-- The state `update_snake` produces from `c3State`: head out of bounds,
terminal, body shifted. -/
def c3Result : GameState :=
  { game_over := true
    allow_move := false
    fruit_position := none
    snake_position := [(4, 0), (3, 0)]
    snake_velocity := (1, 0)
    board_size := (4, 4)
    score := -1 }

/-- The scenario of spec property 8: body [(1,1),(0,1)], velocity (-1,0). -/
def c4State : GameState :=
  { game_over := false
    allow_move := true
    fruit_position := none
    snake_position := [(1, 1), (0, 1)]
    snake_velocity := (-1, 0)
    board_size := (16, 16)
    score := 0 }

/-- The state `update_snake` produces from `c4State`: the head lands on the
cell the tail has just vacated, and the game is NOT over. -/
def c4Result : GameState :=
  { game_over := false
    allow_move := false
    fruit_position := none
    snake_position := [(0, 1), (1, 1)]
    snake_velocity := (-1, 0)
    board_size := (16, 16)
    score := -1 }

/-- A state one move away from a wall collision, with no fruit present. -/
def c5State : GameState :=
  { game_over := false
    allow_move := true
    fruit_position := none
    snake_position := [(3, 0), (2, 0)]
    snake_velocity := (1, 0)
    board_size := (4, 4)
    score := 0 }

/-- The state after `update_snake` on `c5State`: terminal, fruit still
absent. -/
def c5Mid : GameState :=
  { game_over := true
    allow_move := false
    fruit_position := none
    snake_position := [(4, 0), (3, 0)]
    snake_velocity := (1, 0)
    board_size := (4, 4)
    score := -1 }

/-- The state after the full tick on `c5State` with fruit draw (0,3): the
tick that set `game_over` still spawned a fruit. -/
def c5Result : GameState :=
  { game_over := true
    allow_move := false
    fruit_position := some (0, 3)
    snake_position := [(4, 0), (3, 0)]
    snake_velocity := (1, 0)
    board_size := (4, 4)
    score := -1 }

/-- The state `update_snake` produces from the initial state. -/
def c6Mid : GameState :=
  { game_over := false
    allow_move := false
    fruit_position := none
    snake_position := [(9, 8)]
    snake_velocity := (1, 0)
    board_size := (16, 16)
    score := -1 }

/-- A state with the head at the corner (0,0) and no fruit present (as
arises right after a capture at (0,0)). -/
def c7State : GameState :=
  { game_over := false
    allow_move := false
    fruit_position := none
    snake_position := [(0, 0), (0, 1)]
    snake_velocity := (0, 1)
    board_size := (16, 16)
    score := 0 }

/-- The state after a non-movement tick on `c7State` with fruit draw (0,1):
the respawn falls back to the dummy position (0,0), which equals the head,
so the growth branch fires and appends (0,0) -- not the former tail. -/
def c7Result : GameState :=
  { game_over := false
    allow_move := false
    fruit_position := none
    snake_position := [(0, 0), (0, 1), (0, 0)]
    snake_velocity := (0, 1)
    board_size := (16, 16)
    score := 20 }

/-- A state in which the fruit lies on a snake segment (reachable, as the
theorem for claim C1 shows for the same configuration). -/
def c8State : GameState :=
  { game_over := false
    allow_move := false
    fruit_position := some (0, 0)
    snake_position := [(0, 1), (0, 0)]
    snake_velocity := (0, 1)
    board_size := (16, 16)
    score := 1 }

/-- The cell vector the snapshot builder produces from `c8State`. -/
def c8Cells : List Int :=
  (((List.replicate 256 (0 : Int)).set 1 1).set 0 1).set 0 2

/-- A small square state for evaluating the amended snapshot theorem. -/
def c8WitState : GameState :=
  { game_over := false
    allow_move := true
    fruit_position := some (1, 1)
    snake_position := [(0, 0)]
    snake_velocity := (1, 0)
    board_size := (2, 2)
    score := 3 }

/-- A terminal state presented to the External-mode tick. -/
def c9DeadState : GameState :=
  { game_over := true
    allow_move := false
    fruit_position := some (3, 3)
    snake_position := [(5, 5), (4, 5)]
    snake_velocity := (1, 0)
    board_size := (16, 16)
    score := -7 }

/-- What the External-mode tick does with `c9DeadState`: reset, no channel
event. -/
def c9AfterReset : GameState :=
  { game_over := false
    allow_move := true
    fruit_position := none
    snake_position := [(8, 8)]
    snake_velocity := (1, 0)
    board_size := (16, 16)
    score := 0 }

/-- The snapshot cells of the initial state: all zeros except a 1 for the
single segment at (8,8), index 16*8+8 = 136. -/
def c9WitnessCells : List Int :=
  (List.replicate 256 (0 : Int)).set 136 1

/-- The state after one External-mode tick from the initial state with
intent Pass and fruit draw (0,0). -/
def c9WitnessAfter : GameState :=
  { game_over := false
    allow_move := false
    fruit_position := some (0, 0)
    snake_position := [(9, 8)]
    snake_velocity := (1, 0)
    board_size := (16, 16)
    score := -1 }

/-- A tail-chase configuration: the head moves onto the cell the tail is
about to vacate. -/
def c10State : GameState :=
  { game_over := false
    allow_move := true
    fruit_position := some (9, 9)
    snake_position := [(1, 1), (0, 1)]
    snake_velocity := (-1, 0)
    board_size := (16, 16)
    score := 5 }

/-- The state `update_snake` produces from `c10State`: still alive. -/
def c10Result : GameState :=
  { game_over := false
    allow_move := false
    fruit_position := some (9, 9)
    snake_position := [(0, 1), (1, 1)]
    snake_velocity := (-1, 0)
    board_size := (16, 16)
    score := 4 }

/-! Helper lemmas characterizing the step functions. -/

lemma updateSnake_eq_some (s : GameState) (p : Int × Int) (ps : List (Int × Int))
    (hb : s.snake_position = p :: ps) :
    updateSnake s =
      some ({ s with
          snake_position :=
            (p.1 + s.snake_velocity.1, p.2 + s.snake_velocity.2) :: (p :: ps).dropLast
          game_over := s.game_over
            || (decide (s.board_size.1 ≤ p.1 + s.snake_velocity.1)
              || decide (s.board_size.2 ≤ p.2 + s.snake_velocity.2)
              || decide (p.1 + s.snake_velocity.1 < 0)
              || decide (p.2 + s.snake_velocity.2 < 0))
            || decide ((p.1 + s.snake_velocity.1, p.2 + s.snake_velocity.2) ∈
                (p :: ps).dropLast)
          allow_move := false
          score := s.score - 1 },
        (p :: ps).getLast (List.cons_ne_nil p ps)) := by
  cases s with
  | mk go am fr sp v bd sc =>
    simp only at hb
    subst hb
    rfl

lemma updateEnv_eq_some (rng last : Int × Int) (s : GameState) (p : Int × Int)
    (ps : List (Int × Int)) (hb : s.snake_position = p :: ps) :
    updateEnv rng last s =
      some (if p = spawnPos rng last s then
          { s with
              score := s.score + 20
              snake_position := s.snake_position ++ [last]
              fruit_position := none }
        else { s with fruit_position := some (spawnPos rng last s) }) := by
  cases s with
  | mk go am fr sp v bd sc =>
    simp only at hb
    subst hb
    cases fr with
    | none =>
      by_cases hm : rng ∈ p :: ps
      · simp only [updateEnv, spawnPos, if_pos hm]
      · simp only [updateEnv, spawnPos, if_neg hm]
    | some q =>
      simp only [updateEnv, spawnPos]

lemma runKb_reachable :
    ∀ (l : List KbInput) (a b : GameState × Nat),
      runKb l a = some b → Relation.ReflTransGen kbStep a b := by
  intro l
  induction l with
  | nil =>
    intro a b h
    simp only [runKb, Option.some.injEq] at h
    subst h
    exact Relation.ReflTransGen.refl
  | cons x rest ih =>
    intro a b h
    rcases x with ⟨k, r⟩
    simp only [runKb] at h
    split at h
    · rename_i hok
      cases hkt : kbTick k r a with
      | none => rw [hkt] at h; cases h
      | some m =>
        rw [hkt] at h
        exact Relation.ReflTransGen.head ⟨k, r, hok, hkt⟩ (ih m b h)
    · cases h

lemma getLast_not_mem_dropLast (l : List (Int × Int)) (hnd : l.Nodup) (hne : l ≠ []) :
    l.getLast hne ∉ l.dropLast := by
  intro hmem
  have h1 : l.dropLast ++ [l.getLast hne] = l := List.dropLast_append_getLast hne
  rw [← h1] at hnd
  have h2 := (List.nodup_append.mp hnd).2.2
  exact h2 hmem (List.mem_singleton_self _)

lemma cellIdx_nonneg (w : Int) (hw : 0 < w) (p : Int × Int) (hp : inBoard w p) :
    0 ≤ w * p.1 + p.2 :=
  add_nonneg (mul_nonneg hw.le hp.1) hp.2.2.1

lemma cellIdx_lt (w : Int) (hw : 0 < w) (p : Int × Int) (hp : inBoard w p) :
    w * p.1 + p.2 < w * w := by
  obtain ⟨h1, h2, h3, h4⟩ := hp
  calc w * p.1 + p.2 < w * p.1 + w := by linarith
    _ = w * (p.1 + 1) := by ring
    _ ≤ w * w := by
        refine mul_le_mul_of_nonneg_left ?_ hw.le
        omega

lemma cellIdx_inj (w : Int) (hw : 0 < w) (p q : Int × Int) (hp : inBoard w p)
    (hq : inBoard w q) (h : w * p.1 + p.2 = w * q.1 + q.2) : p = q := by
  have e1 : (p.2 + w * p.1) % w = p.2 % w := Int.add_mul_emod_self_left p.2 w p.1
  have e2 : (q.2 + w * q.1) % w = q.2 % w := Int.add_mul_emod_self_left q.2 w q.1
  rw [Int.emod_eq_of_lt hp.2.2.1 hp.2.2.2] at e1
  rw [Int.emod_eq_of_lt hq.2.2.1 hq.2.2.2] at e2
  have hsum : p.2 + w * p.1 = q.2 + w * q.1 := by linarith
  have h2 : p.2 = q.2 := by rw [← e1, ← e2, hsum]
  have h1 : p.1 = q.1 := by
    have hww : w * p.1 = w * q.1 := by linarith
    exact mul_left_cancel₀ (ne_of_gt hw) hww
  exact Prod.ext h1 h2

lemma writeCell_eq_some (cells : List Int) (idx v : Int) (h0 : 0 ≤ idx)
    (hlt : idx.toNat < cells.length) :
    writeCell cells idx v = some (cells.set idx.toNat v) := by
  unfold writeCell
  rw [if_pos ⟨h0, hlt⟩]

lemma foldlM_writeCell (w : Int) (hw : 0 < w) :
    ∀ (body : List (Int × Int)) (cells : List Int),
      cells.length = (w * w).toNat →
      (∀ p ∈ body, inBoard w p) →
      ∃ out,
        body.foldlM (fun cs part => writeCell cs (w * part.1 + part.2) 1) cells =
            some out ∧
          out.length = (w * w).toNat ∧
          (∀ q : Int × Int, inBoard w q →
            out[(w * q.1 + q.2).toNat]? =
              if q ∈ body then some 1 else cells[(w * q.1 + q.2).toNat]?) ∧
          (∀ v ∈ out, v ∈ cells ∨ v = 1) := by
  intro body
  induction body with
  | nil =>
    intro cells hlen hinb
    exact ⟨cells, rfl, hlen, fun q hq => by simp, fun v hv => Or.inl hv⟩
  | cons p rest ih =>
    intro cells hlen hinb
    have hp := hinb p (List.mem_cons_self p rest)
    have h0 : 0 ≤ w * p.1 + p.2 := cellIdx_nonneg w hw p hp
    have hltI : w * p.1 + p.2 < w * w := cellIdx_lt w hw p hp
    have hlt : (w * p.1 + p.2).toNat < cells.length := by
      rw [hlen]; omega
    have hwrite : writeCell cells (w * p.1 + p.2) 1 =
        some (cells.set (w * p.1 + p.2).toNat 1) :=
      writeCell_eq_some cells _ 1 h0 hlt
    obtain ⟨out, hfold, holen, hoget, homem⟩ :=
      ih (cells.set (w * p.1 + p.2).toNat 1)
        (by rw [List.length_set]; exact hlen)
        (fun q hq => hinb q (List.mem_cons_of_mem p hq))
    refine ⟨out, ?_, holen, ?_, ?_⟩
    · rw [List.foldlM_cons, hwrite]
      exact hfold
    · intro q hq
      rw [hoget q hq]
      by_cases hmem : q ∈ rest
      · simp [hmem]
      · by_cases hqp : q = p
        · subst hqp
          have hlt2 : (w * q.1 + q.2).toNat < cells.length := hlt
          simp [List.mem_cons, List.getElem?_set_eq_of_lt (1 : Int) hlt2]
        · have hne : (w * p.1 + p.2).toNat ≠ (w * q.1 + q.2).toNat := by
            intro hEq
            have h0q : 0 ≤ w * q.1 + q.2 := cellIdx_nonneg w hw q hq
            have : w * p.1 + p.2 = w * q.1 + q.2 := by omega
            exact hqp (cellIdx_inj w hw q p hq hp this.symm)
          simp [List.mem_cons, hqp, hmem, List.getElem?_set_ne hne]
    · intro v hv
      rcases homem v hv with hin | h1
      · rcases List.mem_or_eq_of_mem_set hin with h | h
        · exact Or.inl h
        · exact Or.inr h
      · exact Or.inr h1

/-! Claim theorems. -/

set_option maxRecDepth 100000 in
/-- C1: the claim states that in every reachable state a present fruit lies
on no snake body segment. The code violates this: `update_game` calls
`update_env` with the dummy last position `(0,0)` on every tick on which
the snake does not move, and when the random draw then lands on the snake,
the fruit is placed at `(0,0)` even if `(0,0)` is an occupied cell. The
182-frame keyboard play `c1Inputs` reaches the alive state `c1Final` whose
fruit `(0,0)` lies on the snake body. -/
theorem c1_fruit_on_body_reachable :
    kbReachable c1Final ∧ c1Final.1.game_over = false ∧
      c1Final.1.fruit_position = some (0, 0) ∧
      ((0 : Int), (0 : Int)) ∈ c1Final.1.snake_position :=
  ⟨runKb_reachable c1Inputs (initGameState, 0) c1Final (by decide),
    by decide, by decide, by decide⟩

/-- C2: a request that reverses the current axis of motion never changes
the state (in particular the velocity), in both the Keyboard and the
External control branch; a request replaces the velocity only when it
turns onto the currently-zero axis. -/
theorem c2_reversal_rejected (s : GameState) :
    (s.snake_velocity.1 ≠ 0 →
        extApplyMove Move.LFT s = s ∧ extApplyMove Move.RHT s = s ∧
          kbApplyKey (some KbKey.left) s = s ∧ kbApplyKey (some KbKey.right) s = s) ∧
      (s.snake_velocity.2 ≠ 0 →
        extApplyMove Move.TOP s = s ∧ extApplyMove Move.BTM s = s ∧
          kbApplyKey (some KbKey.up) s = s ∧ kbApplyKey (some KbKey.down) s = s) ∧
      (∀ m : Move, (extApplyMove m s).snake_velocity = s.snake_velocity ∨
        ((m = Move.LFT ∨ m = Move.RHT) ∧ s.snake_velocity.1 = 0) ∨
        ((m = Move.TOP ∨ m = Move.BTM) ∧ s.snake_velocity.2 = 0)) := by
  refine ⟨?_, ?_, ?_⟩
  · intro h
    refine ⟨?_, ?_, ?_, ?_⟩ <;> simp [extApplyMove, kbApplyKey, h]
  · intro h
    refine ⟨?_, ?_, ?_, ?_⟩ <;> simp [extApplyMove, kbApplyKey, h]
  · intro m
    cases m with
    | TOP =>
      by_cases h : s.snake_velocity.2 = 0
      · exact Or.inr (Or.inr ⟨Or.inl rfl, h⟩)
      · left; simp [extApplyMove, h]
    | BTM =>
      by_cases h : s.snake_velocity.2 = 0
      · exact Or.inr (Or.inr ⟨Or.inr rfl, h⟩)
      · left; simp [extApplyMove, h]
    | LFT =>
      by_cases h : s.snake_velocity.1 = 0
      · exact Or.inr (Or.inl ⟨Or.inl rfl, h⟩)
      · left; simp [extApplyMove, h]
    | RHT =>
      by_cases h : s.snake_velocity.1 = 0
      · exact Or.inr (Or.inl ⟨Or.inr rfl, h⟩)
      · left; simp [extApplyMove, h]
    | PAS => left; rfl

/-- Witness for C2 at the initial state, whose velocity is (1,0): both
horizontal requests are ignored. -/
theorem c2_reversal_rejected_witness :
    extApplyMove Move.LFT initGameState = initGameState ∧
      extApplyMove Move.RHT initGameState = initGameState ∧
      kbApplyKey (some KbKey.left) initGameState = initGameState ∧
      kbApplyKey (some KbKey.right) initGameState = initGameState :=
  (c2_reversal_rejected initGameState).1 (by decide)

/-- C3: whenever the new head position (old head plus velocity) lies
outside the board, `update_snake` sets `game_over` and leaves the body in
its shifted configuration (new head followed by all segments but the former
tail), not rolled back. -/
theorem c3_wall_collision (s s' : GameState) (p last : Int × Int)
    (hh : s.snake_position.head? = some p)
    (hstep : updateSnake s = some (s', last))
    (hw : s.board_size.1 ≤ p.1 + s.snake_velocity.1 ∨
        s.board_size.2 ≤ p.2 + s.snake_velocity.2 ∨
        p.1 + s.snake_velocity.1 < 0 ∨ p.2 + s.snake_velocity.2 < 0) :
    s'.game_over = true ∧
      s'.snake_position =
        (p.1 + s.snake_velocity.1, p.2 + s.snake_velocity.2) ::
          s.snake_position.dropLast := by
  obtain ⟨ps, hb⟩ : ∃ ps, s.snake_position = p :: ps := by
    cases hsp : s.snake_position with
    | nil => rw [hsp] at hh; cases hh
    | cons a l =>
      rw [hsp] at hh
      simp only [List.head?_cons, Option.some.injEq] at hh
      exact ⟨l, by rw [hh]⟩
  rw [updateSnake_eq_some s p ps hb] at hstep
  simp only [Option.some.injEq, Prod.mk.injEq] at hstep
  obtain ⟨hs', hl⟩ := hstep
  subst hs'
  constructor
  · simp only [Bool.or_eq_true, decide_eq_true_eq]
    tauto
  · rw [hb]

/-- Witness for C3: the spec scenario on the 4x4 board with body
[(3,0),(2,0)] and velocity (1,0); one step makes the game terminal. -/
theorem c3_wall_collision_witness :
    c3Result.game_over = true ∧
      c3Result.snake_position =
        ((3 : Int) + 1, (0 : Int) + 0) :: c3State.snake_position.dropLast :=
  c3_wall_collision c3State c3Result (3, 0) (2, 0) (by decide) (by decide)
    (Or.inl (by decide))

/-- C4 counterexample: the claim predicts `game_over == true` for the step
from body [(1,1),(0,1)] with velocity (-1,0); the code yields
`game_over == false`, because the segments are shifted toward the tail
before the head is compared against them, so the head lands on a cell that
is no longer occupied. -/
theorem c4_counterexample :
    (updateSnake c4State).map (fun r => r.1.game_over) = some false := by decide

/-- C4 amended: from body [(1,1),(0,1)] with velocity (-1,0), one movement
step moves the head onto the cell the tail has just vacated and results in
`game_over == false`, with the body now [(0,1),(1,1)]. -/
theorem c4_tail_cell_step :
    updateSnake c4State = some (c4Result, (0, 1)) ∧
      c4Result.game_over = false ∧
      c4State.snake_position.getLast? = some (0, 1) ∧
      c4Result.snake_position.head? = some (0, 1) := by decide

lemma updateSnake_nil (s : GameState) (hb : s.snake_position = []) :
    updateSnake s = none := by
  cases s with
  | mk go am fr sp v bd sc =>
    simp only at hb
    subst hb
    rfl

/-- C5 counterexample: on the tick that hits the wall from `c5State` (no
fruit present), the fruit field is NOT left unchanged: `update_env` still
runs after `game_over` is set and spawns a fruit at the draw (0,3). -/
theorem c5_counterexample :
    c5State.fruit_position = none ∧
      moveTick (0, 3) c5State = some c5Result ∧
      c5Result.game_over = true ∧ c5Result.fruit_position = some (0, 3) := by decide

/-- C5 amended: on a tick whose movement step sets `game_over`, the
remaining actions are not skipped: `update_env` still executes, so a fruit
is present afterwards (freshly spawned if the field was `None`); the body
and the score (beyond the per-tick decrement already charged) are
unchanged provided the head does not equal the post-spawn fruit
position. -/
theorem c5_env_runs_after_game_over (rng : Int × Int) (s s1 s2 : GameState)
    (last : Int × Int)
    (hstep : updateSnake s = some (s1, last))
    (_hgo : s1.game_over = true)
    (henv : updateEnv rng last s1 = some s2)
    (hnc : s1.snake_position.head? ≠ some (spawnPos rng last s1)) :
    s2.fruit_position = some (spawnPos rng last s1) ∧
      s2.snake_position = s1.snake_position ∧ s2.score = s1.score := by
  obtain ⟨p0, ps0, hb0⟩ : ∃ p0 ps0, s1.snake_position = p0 :: ps0 := by
    cases hsp : s.snake_position with
    | nil => rw [updateSnake_nil s hsp] at hstep; cases hstep
    | cons p ps =>
      rw [updateSnake_eq_some s p ps hsp] at hstep
      simp only [Option.some.injEq, Prod.mk.injEq] at hstep
      obtain ⟨hs1, _⟩ := hstep
      exact ⟨_, _, by rw [← hs1]⟩
  rw [updateEnv_eq_some rng last s1 p0 ps0 hb0] at henv
  have hp0 : ¬p0 = spawnPos rng last s1 := by
    intro hEq
    apply hnc
    rw [hb0, List.head?_cons, hEq]
  rw [if_neg hp0] at henv
  simp only [Option.some.injEq] at henv
  subst henv
  exact ⟨rfl, rfl, rfl⟩

/-- Witness for C5 amended, at the wall-collision tick from `c5State` with
fruit draw (0,3). -/
theorem c5_env_runs_witness :
    c5Result.fruit_position = some (spawnPos (0, 3) (2, 0) c5Mid) ∧
      c5Result.snake_position = c5Mid.snake_position ∧
      c5Result.score = c5Mid.score :=
  c5_env_runs_after_game_over (0, 3) c5State c5Mid c5Result (2, 0) (by decide)
    (by decide) (by decide) (by decide)

/-- C6: from the initial state, one movement step with any fruit draw
leaves the body at [(9,8)], the score at -1 (one per-tick decrement), and
the game alive. No growth can occur on this step: the spawn never places
the fruit on the new head. -/
theorem c6_first_step (rng : Int × Int) :
    ∃ s', moveTick rng initGameState = some s' ∧
      s'.snake_position = [(9, 8)] ∧ s'.score = -1 ∧ s'.game_over = false := by
  have h1 : updateSnake initGameState = some (c6Mid, (8, 8)) := by decide
  have hb : c6Mid.snake_position = ((9 : Int), (8 : Int)) :: [] := rfl
  have hspawn : ((9 : Int), (8 : Int)) ≠ spawnPos rng (8, 8) c6Mid := by
    show ((9 : Int), (8 : Int)) ≠
      (if rng ∈ [((9 : Int), (8 : Int))] then ((8 : Int), (8 : Int)) else rng)
    by_cases hr : rng = ((9 : Int), (8 : Int))
    · subst hr; decide
    · have hmem : rng ∉ [((9 : Int), (8 : Int))] := by simp [hr]
      rw [if_neg hmem]
      exact Ne.symm hr
  have henv := updateEnv_eq_some rng (8, 8) c6Mid (9, 8) [] hb
  rw [if_neg (fun hEq => hspawn hEq)] at henv
  refine ⟨{ c6Mid with fruit_position := some (spawnPos rng (8, 8) c6Mid) },
    ?_, rfl, rfl, rfl⟩
  unfold moveTick
  rw [h1]
  exact henv

/-- C7 counterexample: a completed non-movement tick from `c7State` grows
the body by one (the head equals the just-spawned fruit), but the appended
element is the dummy position (0,0), not the former tail (0,1), contrary
to the parenthetical of the claim. -/
theorem c7_counterexample :
    kbTick none (0, 1) (c7State, 1) = some (c7Result, 2) ∧
      c7Result.snake_position.length = c7State.snake_position.length + 1 ∧
      c7State.snake_position.getLast? = some (0, 1) ∧
      c7Result.snake_position.getLast? = some (0, 0) ∧
      c7Result.snake_position ≠ c7State.snake_position ++ [(0, 1)] := by decide

/-- C7 amended: across `update_env` the body length never decreases; it
grows by exactly one exactly when the head equals the post-spawn fruit
position, in which case the saved last position is appended (the former
tail on movement ticks, as `update_snake` returns the old tail and
preserves the length; the dummy (0,0) on non-movement ticks) and the fruit
is cleared; otherwise the body is unchanged. -/
theorem c7_growth (rng last : Int × Int) (s s' : GameState) (p : Int × Int)
    (ps : List (Int × Int)) (hb : s.snake_position = p :: ps)
    (henv : updateEnv rng last s = some s') :
    (p = spawnPos rng last s →
        s'.snake_position = s.snake_position ++ [last] ∧
          s'.fruit_position = none ∧
          s'.snake_position.length = s.snake_position.length + 1) ∧
      (p ≠ spawnPos rng last s → s'.snake_position = s.snake_position) ∧
      s.snake_position.length ≤ s'.snake_position.length ∧
      (∀ (t t1 : GameState) (l : Int × Int), updateSnake t = some (t1, l) →
        t.snake_position.getLast? = some l ∧
          t1.snake_position.length = t.snake_position.length) := by
  rw [updateEnv_eq_some rng last s p ps hb] at henv
  simp only [Option.some.injEq] at henv
  subst henv
  refine ⟨?_, ?_, ?_, ?_⟩
  · intro hc
    rw [if_pos hc]
    exact ⟨rfl, rfl, by simp⟩
  · intro hc
    rw [if_neg hc]
  · by_cases hc : p = spawnPos rng last s
    · rw [if_pos hc]; simp
    · rw [if_neg hc]
  · intro t t1 l hstep
    cases hsp : t.snake_position with
    | nil => rw [updateSnake_nil t hsp] at hstep; cases hstep
    | cons q qs =>
      rw [updateSnake_eq_some t q qs hsp] at hstep
      simp only [Option.some.injEq, Prod.mk.injEq] at hstep
      obtain ⟨ht1, hl⟩ := hstep
      constructor
      · rw [← hl]
        exact List.getLast?_eq_getLast_of_ne_nil (List.cons_ne_nil q qs)
      · rw [← ht1]
        simp [List.length_dropLast]

/-- Witness for C7 amended: the degenerate capture on the non-movement
tick from `c7State`, where the appended element is the dummy (0,0). -/
theorem c7_growth_witness :
    c7Result.snake_position = c7State.snake_position ++ [(0, 0)] ∧
      c7Result.fruit_position = none ∧
      c7Result.snake_position.length = c7State.snake_position.length + 1 :=
  (c7_growth (0, 1) (0, 0) c7State c7Result (0, 0) [(0, 1)] rfl (by decide)).1
    (by decide)

set_option maxRecDepth 100000 in
/-- C8 counterexample: `c8State` (reachable, see the theorem for C1) has
the fruit at (0,0) on top of a snake segment; the snapshot serializes that
cell as 2 because the fruit value is written after the snake values, so
the claimed "1 iff snake-occupied" mapping fails. -/
theorem c8_counterexample :
    ∃ cells, buildSnapshot c8State = some cells ∧ ¬snapshotSpecClaim c8State cells := by
  refine ⟨c8Cells, by decide, ?_⟩
  rintro ⟨hlen, hvals, hcell⟩
  have hm : ((0 : Int), (0 : Int)) ∈ c8State.snake_position := by decide
  have h1 := ((hcell 0 0 (by decide) (by decide) (by decide) (by decide)).1).mpr hm
  exact absurd h1 (by decide)

/-- C8 amended: for the square boards this program constructs, the
snapshot is defined whenever all positions are on the board, has one entry
per cell (index `column * width + row`, which equals the claimed
`column * height + row` since width = height), all values in 0..2, and the
entry of a cell is 2 if it holds the fruit (the fruit value overwrites the
snake value on an overlapping cell), else 1 if a snake segment occupies
it, else 0. -/
theorem c8_snapshot (s : GameState) (w : Int) (hw : 0 < w)
    (hbd : s.board_size = (w, w))
    (hsnake : ∀ p ∈ s.snake_position, inBoard w p)
    (hfruit : ∀ p, s.fruit_position = some p → inBoard w p) :
    ∃ cells, buildSnapshot s = some cells ∧
      cells.length = (w * w).toNat ∧
      (∀ v ∈ cells, v = 0 ∨ v = 1 ∨ v = 2) ∧
      (∀ c r : Int, inBoard w (c, r) →
        cells[(c * w + r).toNat]? =
          some (if s.fruit_position = some (c, r) then 2
            else if (c, r) ∈ s.snake_position then 1 else 0)) := by
  cases s with
  | mk go am fr sp v bd sc =>
    simp only at hbd hsnake hfruit ⊢
    subst hbd
    have hbase_len :
        (List.replicate ((w : Int) * w).toNat (0 : Int)).length = (w * w).toNat :=
      List.length_replicate _ _
    obtain ⟨out, hfold, holen, hoget, homem⟩ :=
      foldlM_writeCell w hw sp (List.replicate (w * w).toNat (0 : Int)) hbase_len hsnake
    have hbase_get : ∀ q : Int × Int, inBoard w q →
        (List.replicate (w * w).toNat (0 : Int))[(w * q.1 + q.2).toNat]? = some 0 := by
      intro q hq
      have h0 := cellIdx_nonneg w hw q hq
      have hlt := cellIdx_lt w hw q hq
      rw [List.getElem?_replicate, if_pos (by omega)]
    have hout_get : ∀ q : Int × Int, inBoard w q →
        out[(w * q.1 + q.2).toNat]? = some (if q ∈ sp then 1 else 0) := by
      intro q hq
      rw [hoget q hq]
      by_cases hmem : q ∈ sp
      · rw [if_pos hmem, if_pos hmem]
      · rw [if_neg hmem, if_neg hmem, hbase_get q hq]
    have hout_val : ∀ x ∈ out, x = 0 ∨ x = 1 := by
      intro x hx
      rcases homem x hx with hin | h1
      · exact Or.inl (List.eq_of_mem_replicate hin)
      · exact Or.inr h1
    cases fr with
    | none =>
      refine ⟨out, ?_, holen, ?_, ?_⟩
      · simp only [buildSnapshot]
        rw [hfold]
      · intro x hx
        rcases hout_val x hx with h | h
        · exact Or.inl h
        · exact Or.inr (Or.inl h)
      · intro c r hcr
        have hcw : (c * w + r) = (w * c + r) := by ring
        rw [hcw]
        have := hout_get (c, r) hcr
        simp only [reduceCtorEq, if_false] at this ⊢
        exact this
    | some f =>
      have hf : inBoard w f := hfruit f rfl
      have hfe : f.1 * w + f.2 = w * f.1 + f.2 := by ring
      have h0f := cellIdx_nonneg w hw f hf
      have hltf := cellIdx_lt w hw f hf
      have hwf : writeCell out (f.1 * w + f.2) 2 =
          some (out.set (w * f.1 + f.2).toNat 2) := by
        rw [hfe]
        exact writeCell_eq_some out _ 2 (by omega) (by rw [holen]; omega)
      refine ⟨out.set (w * f.1 + f.2).toNat 2, ?_, ?_, ?_, ?_⟩
      · simp only [buildSnapshot]
        rw [hfold]
        exact hwf
      · rw [List.length_set]; exact holen
      · intro x hx
        rcases List.mem_or_eq_of_mem_set hx with hin | h2
        · rcases hout_val x hin with h | h
          · exact Or.inl h
          · exact Or.inr (Or.inl h)
        · exact Or.inr (Or.inr h2)
      · intro c r hcr
        have hcw : (c * w + r) = (w * c + r) := by ring
        rw [hcw]
        by_cases hfcr : f = (c, r)
        · subst hfcr
          rw [List.getElem?_set_eq_of_lt (2 : Int) (by rw [holen]; omega)]
          simp
        · have h0cr := cellIdx_nonneg w hw (c, r) hcr
          have hne : (w * f.1 + f.2).toNat ≠ (w * (c, r).1 + (c, r).2).toNat := by
            intro hEq
            have : w * f.1 + f.2 = w * (c, r).1 + (c, r).2 := by omega
            exact hfcr (cellIdx_inj w hw f (c, r) hf hcr this)
          rw [List.getElem?_set_ne hne, hout_get (c, r) hcr]
          have hfne : ¬(some f = some ((c, r) : Int × Int)) := by
            simp [hfcr]
          rw [if_neg hfne]

/-- Witness for C8 amended: the 2x2 state `c8WitState` with one segment at
(0,0) and the fruit at (1,1). -/
theorem c8_snapshot_witness :
    ∃ cells, buildSnapshot c8WitState = some cells ∧
      cells.length = ((2 : Int) * 2).toNat ∧
      (∀ v ∈ cells, v = 0 ∨ v = 1 ∨ v = 2) ∧
      (∀ c r : Int, inBoard 2 (c, r) →
        cells[(c * 2 + r).toNat]? =
          some (if c8WitState.fruit_position = some (c, r) then 2
            else if (c, r) ∈ c8WitState.snake_position then 1 else 0)) :=
  c8_snapshot c8WitState 2 (by decide) (by decide) (by decide) (by decide)

/-- C9 counterexample: on the tick that handles `game_over`, the External
branch resets and returns early -- the snapshot/intent exchange IS skipped
(the event list is empty), contrary to the claim that every tick performs
exactly one send and one receive. -/
theorem c9_counterexample :
    c9DeadState.game_over = true ∧
      extTick Move.PAS (1, 1) c9DeadState = some ([], c9AfterReset) := by decide

/-- C9 amended: on every tick with `game_over` false, the External branch
performs exactly one snapshot send followed by exactly one intent receipt
and then the simulation step; on a `game_over` tick the exchange is
skipped entirely and the state is reset instead. -/
theorem c9_lockstep (m : Move) (rng : Int × Int) (s : GameState) :
    (s.game_over = true →
        extTick m rng s = some ([], reset { s with allow_move := true })) ∧
      (s.game_over = false → ∀ (cells : List Int) (s2 : GameState),
        buildSnapshot { s with allow_move := true } = some cells →
        moveTick rng (extApplyMove m { s with allow_move := true }) = some s2 →
        extTick m rng s =
          some ([ExtEvent.send cells s.score, ExtEvent.recvd m], s2)) := by
  constructor
  · intro h
    simp only [extTick]
    rw [if_pos (show ({ s with allow_move := true } : GameState).game_over = true from h)]
  · intro h cells s2 hsnap hmv
    simp only [extTick]
    rw [if_neg (show ¬({ s with allow_move := true } : GameState).game_over = true from by
      intro hc; rw [h] at hc; cases hc)]
    rw [hsnap, hmv]

set_option maxRecDepth 100000 in
/-- Witness for C9 amended: one External tick from the initial state with
intent Pass and fruit draw (0,0). -/
theorem c9_lockstep_witness :
    extTick Move.PAS (0, 0) initGameState =
      some ([ExtEvent.send c9WitnessCells 0, ExtEvent.recvd Move.PAS], c9WitnessAfter) :=
  (c9_lockstep Move.PAS (0, 0) initGameState).2 rfl c9WitnessCells c9WitnessAfter
    (by decide) (by decide)

/-- C10: from an alive state satisfying the alive-state invariants (no
duplicate segments, the tail cell on the board) with at least two
segments, a movement step whose new head position equals the old tail cell
does not set `game_over`: the segments are shifted toward the tail before
the head is compared against them, so tail-chasing is a legal move. -/
theorem c10_tail_chase (s s' : GameState) (p t last : Int × Int)
    (hgo : s.game_over = false)
    (hh : s.snake_position.head? = some p)
    (_hlen : 2 ≤ s.snake_position.length)
    (hnd : s.snake_position.Nodup)
    (ht : s.snake_position.getLast? = some t)
    (hb1 : 0 ≤ t.1) (hb2 : t.1 < s.board_size.1) (hb3 : 0 ≤ t.2)
    (hb4 : t.2 < s.board_size.2)
    (hv : (p.1 + s.snake_velocity.1, p.2 + s.snake_velocity.2) = t)
    (hstep : updateSnake s = some (s', last)) :
    s'.game_over = false := by
  obtain ⟨ps, hb⟩ : ∃ ps, s.snake_position = p :: ps := by
    cases hsp : s.snake_position with
    | nil => rw [hsp] at hh; cases hh
    | cons a l =>
      rw [hsp] at hh
      simp only [List.head?_cons, Option.some.injEq] at hh
      exact ⟨l, by rw [hh]⟩
  rw [updateSnake_eq_some s p ps hb] at hstep
  simp only [Option.some.injEq, Prod.mk.injEq] at hstep
  obtain ⟨hs', _⟩ := hstep
  subst hs'
  have hne : (p :: ps) ≠ [] := List.cons_ne_nil p ps
  have hmem : t ∉ (p :: ps).dropLast := by
    have hgl : (p :: ps).getLast hne = t := by
      rw [hb] at ht
      rw [List.getLast?_eq_getLast_of_ne_nil hne] at ht
      exact (Option.some.injEq _ _).mp ht
    have hnogl := getLast_not_mem_dropLast (p :: ps) (hb ▸ hnd) hne
    rw [hgl] at hnogl
    exact hnogl
  have hv1 : p.1 + s.snake_velocity.1 = t.1 := by rw [← hv]
  have hv2 : p.2 + s.snake_velocity.2 = t.2 := by rw [← hv]
  simp only [Bool.or_eq_false_iff, decide_eq_false_iff_not]
  refine ⟨⟨hgo, ?_⟩, ?_⟩
  · rw [hv1, hv2]
    refine ⟨⟨⟨?_, ?_⟩, ?_⟩, ?_⟩ <;> omega
  · rw [hv]
    exact hmem

/-- Witness for C10: the tail-chase from `c10State` (the scenario of spec
property 8) is alive after the step. -/
theorem c10_tail_chase_witness : c10Result.game_over = false :=
  c10_tail_chase c10State c10Result (1, 1) (0, 1) (0, 1) rfl (by decide) (by decide)
    (by decide) (by decide) (by decide) (by decide) (by decide) (by decide)
    (by decide) (by decide)
